import Mathlib

/-!
Verification development for the EVVM signature-construction bot
(`evvm-fisher`, JavaScript).  The JavaScript source is shallowly embedded:
JS numbers are modelled as exact rationals extended with `NaN` and the two
infinities (every claim below is decided at inputs on which IEEE-754 double
rounding cannot change the verdict), JS strings as Lean `String`s restricted
to the ASCII fragment the program manipulates, thrown exceptions as
`Except`, and external collaborators (ledger RPC, randomness source,
cryptographic signer/recoverer) as explicit parameters.
-/

set_option maxRecDepth 200000

/-! ## JavaScript string primitives -/

/-- The whitespace characters recognised by the JS `String.prototype.trim`
(ASCII whitespace plus NBSP, BOM and the unicode space separators that can
realistically appear in chat input). -/
def jsIsWhitespace (c : Char) : Bool :=
  let n := c.toNat
  n = 9 || n = 10 || n = 11 || n = 12 || n = 13 || n = 32 ||
  n = 160 || n = 8232 || n = 8233 || n = 65279

/-- `String.prototype.trim` on the character list. -/
def jsTrimL (cs : List Char) : List Char :=
  ((cs.dropWhile jsIsWhitespace).reverse.dropWhile jsIsWhitespace).reverse

/-- `String.prototype.trim`. -/
def jsTrim (s : String) : String :=
  String.mk (jsTrimL s.data)

/-- `String.prototype.toLowerCase` on one character (the code only ever
lowercases ASCII data: priorities, hex addresses, usernames). -/
def jsToLowerChar (c : Char) : Char :=
  if 65 ≤ c.toNat ∧ c.toNat ≤ 90 then Char.ofNat (c.toNat + 32) else c

/-- `String.prototype.toLowerCase`. -/
def jsToLower (s : String) : String :=
  String.mk (s.data.map jsToLowerChar)

/-! ## JavaScript numbers

Finite doubles are modelled as exact rationals; `NaN` and the infinities are
separate constructors. -/

inductive JSNum : Type
  | fin (q : ℚ)
  | inf
  | negInf
  | nan
  deriving DecidableEq, Repr

/-- Rational addition, written with `mkRat` so that it evaluates inside the
kernel (`Rat.add` itself is irreducible); `ratAdd_eq` identifies it with
`+`. -/
def ratAdd (a b : ℚ) : ℚ := mkRat (a.num * (b.den : ℤ) + b.num * (a.den : ℤ)) (a.den * b.den)

/-- Rational subtraction via `mkRat`; `ratSub_eq` identifies it with `-`. -/
def ratSub (a b : ℚ) : ℚ := mkRat (a.num * (b.den : ℤ) - b.num * (a.den : ℤ)) (a.den * b.den)

/-- Rational absolute value via `mkRat`; `ratAbs_eq` identifies it with
`|·|`. -/
def ratAbs (a : ℚ) : ℚ := mkRat |a.num| a.den

/-- `isNaN`. -/
def JSNum.isNaN : JSNum → Bool
  | .nan => true
  | _ => false

/-- `isFinite`. -/
def JSNum.isFinite : JSNum → Bool
  | .fin _ => true
  | _ => false

/-- `Number.isInteger`. -/
def JSNum.isInteger : JSNum → Bool
  | .fin q => q.den = 1
  | _ => false

/-- `x > 0` (false on `NaN`). -/
def JSNum.gt0 : JSNum → Bool
  | .fin q => 0 < q
  | .inf => true
  | _ => false

/-- `x >= 0` (false on `NaN`). -/
def JSNum.ge0 : JSNum → Bool
  | .fin q => 0 ≤ q
  | .inf => true
  | _ => false

/-- JS `+` on numbers. -/
def JSNum.add : JSNum → JSNum → JSNum
  | .fin a, .fin b => .fin (ratAdd a b)
  | .fin _, .inf => .inf
  | .fin _, .negInf => .negInf
  | .inf, .fin _ => .inf
  | .inf, .inf => .inf
  | .inf, .negInf => .nan
  | .negInf, .fin _ => .negInf
  | .negInf, .inf => .nan
  | .negInf, .negInf => .negInf
  | _, _ => .nan

/-- JS `-` on numbers. -/
def JSNum.sub : JSNum → JSNum → JSNum
  | .fin a, .fin b => .fin (ratSub a b)
  | .fin _, .inf => .negInf
  | .fin _, .negInf => .inf
  | .inf, .fin _ => .inf
  | .inf, .inf => .nan
  | .inf, .negInf => .inf
  | .negInf, .fin _ => .negInf
  | .negInf, .inf => .negInf
  | .negInf, .negInf => .nan
  | _, _ => .nan

/-- `Math.abs`. -/
def JSNum.abs : JSNum → JSNum
  | .fin a => .fin (ratAbs a)
  | .inf => .inf
  | .negInf => .inf
  | .nan => .nan

/-- JS `<` on numbers (false whenever `NaN` is involved). -/
def JSNum.lt : JSNum → JSNum → Bool
  | .fin a, .fin b => a < b
  | .fin _, .inf => true
  | .negInf, .fin _ => true
  | .negInf, .inf => true
  | _, _ => false

/-! ## `parseFloat` and `parseInt` -/

/-- Numeric value of a decimal digit character, if it is one. -/
def decDigit? (c : Char) : Option ℕ :=
  if 48 ≤ c.toNat ∧ c.toNat ≤ 57 then some (c.toNat - 48) else none

/-- Numeric value of a hexadecimal digit character, if it is one. -/
def hexDigit? (c : Char) : Option ℕ :=
  if 48 ≤ c.toNat ∧ c.toNat ≤ 57 then some (c.toNat - 48)
  else if 97 ≤ c.toNat ∧ c.toNat ≤ 102 then some (c.toNat - 87)
  else if 65 ≤ c.toNat ∧ c.toNat ≤ 70 then some (c.toNat - 55)
  else none

/-- Longest prefix of decimal digits, with its value:
returns (number of digits consumed, value, remaining input). -/
def takeDigits : List Char → ℕ → ℕ → ℕ × ℕ × List Char
  | [], k, acc => (k, acc, [])
  | c :: cs, k, acc =>
    match decDigit? c with
    | some d => takeDigits cs (k + 1) (acc * 10 + d)
    | none => (k, acc, c :: cs)

/-- Longest prefix of hexadecimal digits, with its value. -/
def takeHexDigits : List Char → ℕ → ℕ → ℕ × ℕ × List Char
  | [], k, acc => (k, acc, [])
  | c :: cs, k, acc =>
    match hexDigit? c with
    | some d => takeHexDigits cs (k + 1) (acc * 16 + d)
    | none => (k, acc, c :: cs)

/-- Optional leading sign; returns the sign (as `+1`/`-1`) and the rest. -/
def takeSign : List Char → ℤ × List Char
  | [] => (1, [])
  | c :: cs =>
    if c = '+' then (1, cs)
    else if c = '-' then (-1, cs)
    else (1, c :: cs)

/-- Exponent part of `parseFloat` (after the mantissa): `e`/`E`, optional
sign, digits.  An ill-formed exponent is ignored, as in JS. -/
def parseExponent (cs : List Char) : ℤ :=
  match cs with
  | [] => 0
  | c :: rest =>
    if c = 'e' ∨ c = 'E' then
      let (esign, rest') := takeSign rest
      let (k, v, _) := takeDigits rest' 0 0
      if k = 0 then 0 else esign * (v : ℤ)
    else 0

/-- The mantissa-and-exponent part of `parseFloat`, after sign stripping.
The value `sign * (intPart.fracPart) * 10^exp` is assembled directly with
`mkRat` so that it is an exact rational. -/
def parseFloatBody (sign : ℤ) (cs : List Char) : JSNum :=
  if cs.take 8 = ['I', 'n', 'f', 'i', 'n', 'i', 't', 'y'] then
    if sign = 1 then .inf else .negInf
  else
    let (kInt, vInt, rest) := takeDigits cs 0 0
    let (kFrac, vFrac, rest') :=
      match rest with
      | [] => (0, 0, ([] : List Char))
      | c :: cs' => if c = '.' then takeDigits cs' 0 0 else (0, 0, c :: cs')
    if kInt = 0 && kFrac = 0 then .nan
    else
      let e : ℤ := parseExponent rest'
      let den : ℕ := 10 ^ kFrac
      let mantNum : ℤ := sign * ((vInt : ℤ) * (den : ℤ) + (vFrac : ℤ))
      if 0 ≤ e then .fin (mkRat (mantNum * (10 : ℤ) ^ e.toNat) den)
      else .fin (mkRat mantNum (den * 10 ^ (-e).toNat))

/-- JS `parseFloat` (exact-rational model of the double result). -/
def jsParseFloat (s : String) : JSNum :=
  let cs := s.data.dropWhile jsIsWhitespace
  let (sign, cs') := takeSign cs
  parseFloatBody sign cs'

/-- JS `parseInt` with no radix argument: leading whitespace and sign, then
either a `0x`/`0X` hexadecimal literal or decimal digits; `NaN` when no
digit is consumed. -/
def jsParseInt (s : String) : JSNum :=
  let cs := s.data.dropWhile jsIsWhitespace
  let (sign, cs') := takeSign cs
  if cs'.take 2 = ['0', 'x'] ∨ cs'.take 2 = ['0', 'X'] then
    let (k, v, _) := takeHexDigits (cs'.drop 2) 0 0
    if k = 0 then .nan else .fin ((sign * (v : ℤ) : ℤ) : ℚ)
  else
    let (k, v, _) := takeDigits cs' 0 0
    if k = 0 then .nan else .fin ((sign * (v : ℤ) : ℤ) : ℚ)

/-! ## JavaScript values and truthiness -/

/-- The JS values that flow through the validators and builders. -/
inductive JSVal : Type
  | undef
  | null
  | bool (b : Bool)
  | num (n : JSNum)
  | str (s : String)
  | big (i : ℤ)
  deriving DecidableEq, Repr

/-- JS truthiness. -/
def JSVal.truthy : JSVal → Bool
  | .undef => false
  | .null => false
  | .bool b => b
  | .num (.fin q) => q ≠ 0
  | .num .nan => false
  | .num _ => true
  | .str s => s ≠ ""
  | .big i => i ≠ 0

/-! ## Validators (`src/utils/dataHashing.js`, `validationUtils`) -/

/-- `isValidAmount` (`dataHashing.js`): a string parsing to a number `> 0`,
or a number `> 0`; anything else is invalid.  (This version has no
`isFinite` check, so `"Infinity"` passes.) -/
def isValidAmount (amount : JSVal) : Bool :=
  match amount with
  | .str s => let n := jsParseFloat s; !n.isNaN && n.gt0
  | .num n => n.gt0 && !n.isNaN
  | _ => false

/-- `isValidPriorityFee` (`dataHashing.js`): a string parsing to a number
`>= 0`, or a number `>= 0`. -/
def isValidPriorityFee (fee : JSVal) : Bool :=
  match fee with
  | .str s => let n := jsParseFloat s; !n.isNaN && n.ge0
  | .num n => n.ge0 && !n.isNaN
  | _ => false

/-- `isValidPriority`: `["low","high"].includes(priority.toLowerCase())`. -/
def isValidPriority (priority : String) : Bool :=
  jsToLower priority = "low" || jsToLower priority = "high"

/-- `isValidNonce` (`validationUtils.js`): strings go through `parseInt`
(`NaN` rejected, value must be `> 0`, and `parseFloat` of the string must be
an integer); numbers must be integers `> 0`; bigints must be `> 0n`. -/
def isValidNonce (nonce : JSVal) : Bool :=
  match nonce with
  | .str s =>
    let num := jsParseInt s
    !num.isNaN && num.gt0 && (jsParseFloat s).isInteger
  | .num n => n.isInteger && n.gt0
  | .big i => 0 < i
  | _ => false

/-- A recipient record of a disperse payment, as accumulated by the
handlers: `address`/`username` optional strings, `amount` the raw
(trimmed) text the user entered. -/
structure DisperseRecipient : Type where
  address : Option String
  username : Option String
  amount : String
  deriving DecidableEq, Repr

/-- Truthiness of an optional string field of a JS object (absent and empty
both falsy). -/
def optTruthy : Option String → Bool
  | none => false
  | some s => s ≠ ""

/-- `validateTotalAmount` (`validationUtils.js`): sums
`parseFloat(recipient.amount)` over the recipients and accepts when the
absolute difference from `parseFloat(totalAmount)` is strictly below the
literal `0.000001`.  (The JS doubles are modelled as exact rationals; no
exception can arise on these typed inputs, so the `catch` branch is
unreachable.) -/
def validateTotalAmount (recipients : List DisperseRecipient) (totalAmount : String) : Bool :=
  let sum := recipients.foldl (fun acc r => acc.add (jsParseFloat r.amount)) (JSNum.fin 0)
  ((sum.sub (jsParseFloat totalAmount)).abs).lt (JSNum.fin (mkRat 1 1000000))

/-! ## SHA-256 (for `hashPreregisteredUsername`)

A direct executable model of the digest `crypto.createHash("sha256")`
computes, over the UTF-8 bytes of the input; 32-bit words are naturals
taken mod `2^32`. -/

/-- Truncate to a 32-bit word. -/
def w32 (n : ℕ) : ℕ := n % 4294967296

/-- 32-bit right rotation. -/
def rotr32 (x n : ℕ) : ℕ := w32 ((x >>> n) ||| (x <<< (32 - n)))

/-- 32-bit complement. -/
def not32 (x : ℕ) : ℕ := 4294967295 - w32 x

/-- The 64 SHA-256 round constants. -/
def sha256K : List ℕ :=
  [1116352408, 1899447441, 3049323471, 3921009573,
   961987163, 1508970993, 2453635748, 2870763221,
   3624381080, 310598401, 607225278, 1426881987,
   1925078388, 2162078206, 2614888103, 3248222580,
   3835390401, 4022224774, 264347078, 604807628,
   770255983, 1249150122, 1555081692, 1996064986,
   2554220882, 2821834349, 2952996808, 3210313671,
   3336571891, 3584528711, 113926993, 338241895,
   666307205, 773529912, 1294757372, 1396182291,
   1695183700, 1986661051, 2177026350, 2456956037,
   2730485921, 2820302411, 3259730800, 3345764771,
   3516065817, 3600352804, 4094571909, 275423344,
   430227734, 506948616, 659060556, 883997877,
   958139571, 1322822218, 1537002063, 1747873779,
   1955562222, 2024104815, 2227730452, 2361852424,
   2428436474, 2756734187, 3204031479, 3329325298]

/-- The SHA-256 initial hash state. -/
def sha256Init : List ℕ :=
  [1779033703, 3144134277, 1013904242, 2773480762,
   1359893119, 2600822924, 528734635, 1541459225]

/-- Message padding: `0x80`, zeros, then the bit length as 8 big-endian
bytes, to a multiple of 64 bytes. -/
def sha256Pad (msg : List ℕ) : List ℕ :=
  let L := msg.length
  let zeros := (64 + 55 - (L % 64)) % 64
  let bitLen := 8 * L
  msg ++ [0x80] ++ List.replicate zeros 0 ++
    ((List.range 8).map fun i => (bitLen >>> (8 * (7 - i))) % 256)

/-- Big-endian 32-bit words of a block of bytes. -/
def wordsOfBytes : List ℕ → List ℕ
  | b0 :: b1 :: b2 :: b3 :: rest => (((b0 * 256 + b1) * 256 + b2) * 256 + b3) :: wordsOfBytes rest
  | _ => []

/-- One step of the message-schedule extension (`w` holds the words
produced so far, most recent last). -/
def sha256NextWord (w : List ℕ) : ℕ :=
  let g (i : ℕ) : ℕ := w.getD (w.length - i) 0
  let s0 := Nat.xor (Nat.xor (rotr32 (g 15) 7) (rotr32 (g 15) 18)) ((g 15) >>> 3)
  let s1 := Nat.xor (Nat.xor (rotr32 (g 2) 17) (rotr32 (g 2) 19)) ((g 2) >>> 10)
  w32 (g 16 + s0 + g 7 + s1)

/-- Extend the 16 block words to the 64 schedule words. -/
def sha256Schedule : List ℕ → ℕ → List ℕ
  | w, 0 => w
  | w, k + 1 => sha256Schedule (w ++ [sha256NextWord w]) k

/-- One compression round, acting on the working variables
`[a,b,c,d,e,f,g,h]`. -/
def sha256Round (vars : List ℕ) (kw : ℕ × ℕ) : List ℕ :=
  match vars with
  | [a, b, c, d, e, f, g, h] =>
    let s1 := Nat.xor (Nat.xor (rotr32 e 6) (rotr32 e 11)) (rotr32 e 25)
    let ch := Nat.xor (Nat.land e f) (Nat.land (not32 e) g)
    let t1 := w32 (h + s1 + ch + kw.1 + kw.2)
    let s0 := Nat.xor (Nat.xor (rotr32 a 2) (rotr32 a 13)) (rotr32 a 22)
    let mj := Nat.xor (Nat.xor (Nat.land a b) (Nat.land a c)) (Nat.land b c)
    let t2 := w32 (s0 + mj)
    [w32 (t1 + t2), a, b, c, w32 (d + t1), e, f, g]
  | other => other

/-- Compress one 64-byte block into the hash state. -/
def sha256Compress (hs : List ℕ) (block : List ℕ) : List ℕ :=
  let w := sha256Schedule (wordsOfBytes block) 48
  let vars := (sha256K.zip w).foldl sha256Round hs
  (hs.zip vars).map fun p => w32 (p.1 + p.2)

/-- Fold the compression over the (already padded) byte stream; the first
argument is the number of 64-byte blocks. -/
def sha256Blocks : ℕ → List ℕ → List ℕ → List ℕ
  | 0, hs, _ => hs
  | k + 1, hs, bytes => sha256Blocks k (sha256Compress hs (bytes.take 64)) (bytes.drop 64)

/-- The SHA-256 digest of a byte list, read as the big-endian 256-bit
natural number `BigInt("0x" + digestHex)`. -/
def sha256Nat (msg : List ℕ) : ℕ :=
  let padded := sha256Pad msg
  (sha256Blocks (padded.length / 64) sha256Init padded).foldl
    (fun acc word => acc * 4294967296 + word) 0

/-- UTF-8 encoding of one character. -/
def utf8EncodeCh (c : Char) : List ℕ :=
  let n := c.toNat
  if n < 0x80 then [n]
  else if n < 0x800 then [0xC0 ||| (n >>> 6), 0x80 ||| (n &&& 0x3F)]
  else if n < 0x10000 then
    [0xE0 ||| (n >>> 12), 0x80 ||| ((n >>> 6) &&& 0x3F), 0x80 ||| (n &&& 0x3F)]
  else
    [0xF0 ||| (n >>> 18), 0x80 ||| ((n >>> 12) &&& 0x3F),
     0x80 ||| ((n >>> 6) &&& 0x3F), 0x80 ||| (n &&& 0x3F)]

/-- UTF-8 bytes of a string (the encoding `crypto`'s `update` applies). -/
def utf8Bytes (s : String) : List ℕ :=
  s.data.flatMap utf8EncodeCh

/-- `hashPreregisteredUsername` (`dataHashing.js`): rejects empty or
non-string input, then trims, lower-cases, and returns the SHA-256 digest
of the normalized string as an unsigned big integer. -/
def hashPreregisteredUsername (username : JSVal) : Except String ℕ :=
  match username with
  | .str s =>
    if s = "" then .error "Username must be a non-empty string"
    else .ok (sha256Nat (utf8Bytes (jsToLower (jsTrim s))))
  | _ => .error "Username must be a non-empty string"

/-! ## Keccak-256 and the ethers v6 address functions

`isValidAddress` in the repository delegates to `ethers.isAddress`; the
library's `getAddress`/`getChecksumAddress`/ICAP logic (ethers v6) is
modelled here, including the EIP-55 checksum, which needs Keccak-256.
64-bit lanes are naturals taken mod `2^64`; the state is the row-major
list of the 25 lanes (index `x + 5*y`). -/

/-- Truncate to a 64-bit lane. -/
def w64 (n : ℕ) : ℕ := n % 18446744073709551616

/-- 64-bit left rotation. -/
def rotl64 (x n : ℕ) : ℕ := w64 ((x <<< n) ||| (x >>> (64 - n)))

/-- 64-bit complement. -/
def not64 (x : ℕ) : ℕ := 18446744073709551615 - w64 x

/-- The 24 Keccak round constants. -/
def keccakRC : List ℕ :=
  [1, 32898, 9223372036854808714,
   9223372039002292224, 32907, 2147483649,
   9223372039002292353, 9223372036854808585, 138,
   136, 2147516425, 2147483658,
   2147516555, 9223372036854775947, 9223372036854808713,
   9223372036854808579, 9223372036854808578, 9223372036854775936,
   32778, 9223372039002259466, 9223372039002292353,
   9223372036854808704, 2147483649, 9223372039002292232]

/-- Rotation offset of the lane at index `x + 5*y`. -/
def keccakRotOff (i : ℕ) : ℕ :=
  match i with
  | 1 => 1
  | 2 => 62
  | 3 => 28
  | 4 => 27
  | 5 => 36
  | 6 => 44
  | 7 => 6
  | 8 => 55
  | 9 => 20
  | 10 => 3
  | 11 => 10
  | 12 => 43
  | 13 => 25
  | 14 => 39
  | 15 => 41
  | 16 => 45
  | 17 => 15
  | 18 => 21
  | 19 => 8
  | 20 => 18
  | 21 => 2
  | 22 => 61
  | 23 => 56
  | 24 => 14
  | _ => 0

/-- θ step. -/
def keccakTheta (st : List ℕ) : List ℕ :=
  let C := (List.range 5).map fun x =>
    Nat.xor (Nat.xor (Nat.xor (Nat.xor (st.getD x 0) (st.getD (x + 5) 0)) (st.getD (x + 10) 0))
      (st.getD (x + 15) 0)) (st.getD (x + 20) 0)
  let D := (List.range 5).map fun x =>
    Nat.xor (C.getD ((x + 4) % 5) 0) (rotl64 (C.getD ((x + 1) % 5) 0) 1)
  (List.range 25).map fun i => Nat.xor (st.getD i 0) (D.getD (i % 5) 0)

/-- ρ and π steps combined: output lane `(X,Y)` is the rotated source lane
`((X + 3Y) mod 5, X)`. -/
def keccakRhoPi (st : List ℕ) : List ℕ :=
  (List.range 25).map fun j =>
    let X := j % 5
    let Y := j / 5
    let x := (X + 3 * Y) % 5
    let y := X
    rotl64 (st.getD (x + 5 * y) 0) (keccakRotOff (x + 5 * y))

/-- χ step. -/
def keccakChi (b : List ℕ) : List ℕ :=
  (List.range 25).map fun j =>
    let X := j % 5
    let Y := j / 5
    Nat.xor (b.getD j 0)
      (Nat.land (not64 (b.getD ((X + 1) % 5 + 5 * Y) 0)) (b.getD ((X + 2) % 5 + 5 * Y) 0))

/-- One Keccak-f round (θ, ρ, π, χ, ι). -/
def keccakRound (st : List ℕ) (rc : ℕ) : List ℕ :=
  let c := keccakChi (keccakRhoPi (keccakTheta st))
  c.set 0 (Nat.xor (c.getD 0 0) rc)

/-- The Keccak-f[1600] permutation. -/
def keccakF (st : List ℕ) : List ℕ :=
  keccakRC.foldl keccakRound st

/-- Keccak (pre-SHA-3) padding for rate 136: `0x01 … 0x80`. -/
def keccakPad (msg : List ℕ) : List ℕ :=
  let padLen := 136 - msg.length % 136
  if padLen = 1 then msg ++ [0x81]
  else msg ++ [0x01] ++ List.replicate (padLen - 2) 0 ++ [0x80]

/-- A little-endian 64-bit lane from (at most eight) bytes. -/
def laneOfBytes (bs : List ℕ) : ℕ :=
  bs.foldr (fun b acc => acc * 256 + b) 0

/-- The 17 lanes of one 136-byte block. -/
def lanesOfBlock : List ℕ → List ℕ
  | b0 :: b1 :: b2 :: b3 :: b4 :: b5 :: b6 :: b7 :: rest =>
    laneOfBytes [b0, b1, b2, b3, b4, b5, b6, b7] :: lanesOfBlock rest
  | _ => []

/-- XOR a block's lanes into the state and permute. -/
def keccakAbsorbBlock (st : List ℕ) (block : List ℕ) : List ℕ :=
  let lanes := lanesOfBlock block
  keccakF ((List.range 25).map fun i => Nat.xor (st.getD i 0) (lanes.getD i 0))

/-- Absorb the (already padded) byte stream; the first argument is the
number of 136-byte blocks. -/
def keccakAbsorb : ℕ → List ℕ → List ℕ → List ℕ
  | 0, st, _ => st
  | k + 1, st, bytes => keccakAbsorb k (keccakAbsorbBlock st (bytes.take 136)) (bytes.drop 136)

/-- Keccak-256 digest (32 bytes) of a byte list. -/
def keccak256 (msg : List ℕ) : List ℕ :=
  let padded := keccakPad msg
  let st := keccakAbsorb (padded.length / 136) (List.replicate 25 0) padded
  (List.range 4).flatMap fun i => (List.range 8).map fun k => (st.getD i 0 >>> (8 * k)) % 256

/-- `String.prototype.toUpperCase` on one character (ASCII fragment). -/
def jsToUpperChar (c : Char) : Char :=
  if 97 ≤ c.toNat ∧ c.toNat ≤ 122 then Char.ofNat (c.toNat - 32) else c

/-- `String.prototype.toUpperCase`. -/
def jsToUpper (s : String) : String :=
  String.mk (s.data.map jsToUpperChar)

/-- A hexadecimal digit (`[0-9a-fA-F]`). -/
def isHexDigitCh (c : Char) : Bool :=
  (c.toNat ≥ 48 && c.toNat ≤ 57) || (c.toNat ≥ 97 && c.toNat ≤ 102) ||
  (c.toNat ≥ 65 && c.toNat ≤ 70)

/-- The ethers `getAddress` entry regex `^(0x)?[0-9a-fA-F]{40}$`. -/
def matchesAddrRegex (s : String) : Bool :=
  let cs := s.data
  (cs.length = 42 && cs.take 2 = ['0', 'x'] && (cs.drop 2).all isHexDigitCh) ||
  (cs.length = 40 && cs.all isHexDigitCh)

/-- The ethers mixed-case test `/([A-F].*[a-f])|([a-f].*[A-F])/`: the string
contains both an upper-case and a lower-case hex letter. -/
def isMixedCaseHex (s : String) : Bool :=
  (s.data.any fun c => c.toNat ≥ 65 && c.toNat ≤ 70) &&
  (s.data.any fun c => c.toNat ≥ 97 && c.toNat ≤ 102)

/-- ethers `getChecksumAddress`: lower-case the 40 hex digits, Keccak-256
their ASCII codes, and upper-case each digit whose corresponding hash
nibble is `≥ 8`. -/
def getChecksumAddress (address : String) : String :=
  let addr := jsToLower address
  let chars := addr.data.drop 2
  let hashed := keccak256 (chars.map Char.toNat)
  let outChars := (List.range 40).map fun i =>
    let c := chars.getD i ' '
    let nib := if i % 2 = 0 then (hashed.getD (i / 2) 0) >>> 4 else (hashed.getD (i / 2) 0) &&& 15
    if nib ≥ 8 then jsToUpperChar c else c
  "0x" ++ String.mk outChars

/-- The ethers ICAP regex `^XE[0-9]{2}[0-9A-Za-z]{30,31}$`. -/
def matchesIcapRegex (s : String) : Bool :=
  let cs := s.data
  (cs.length = 34 || cs.length = 35) &&
  cs.take 2 = ['X', 'E'] &&
  ((cs.drop 2).take 2).all (fun c => c.toNat ≥ 48 && c.toNat ≤ 57) &&
  (cs.drop 4).all (fun c =>
    (c.toNat ≥ 48 && c.toNat ≤ 57) || (c.toNat ≥ 97 && c.toNat ≤ 122) ||
    (c.toNat ≥ 65 && c.toNat ≤ 90))

/-- The ethers `ibanLookup` table as a digit string (`"0"`–`"9"`,
`"10"`–`"35"`; only digits and upper-case letters reach it). -/
def ibanLookupStr (c : Char) : List Char :=
  if c.toNat ≥ 48 && c.toNat ≤ 57 then [c]
  else if c.toNat ≥ 65 && c.toNat ≤ 90 then Nat.toDigits 10 (c.toNat - 55)
  else []

/-- `parseInt(block, 10)` of a block of decimal digit characters. -/
def valOfDecChars (cs : List Char) : ℕ :=
  cs.foldl (fun a c => a * 10 + (c.toNat - 48)) 0

/-- The mod-97 chunking loop of `ibanChecksum` (the fuel is the initial
length, which bounds the number of iterations since each one shortens the
string). -/
def ibanLoop : ℕ → List Char → List Char
  | 0, e => e
  | fuel + 1, e =>
    if 15 ≤ e.length then
      ibanLoop fuel (Nat.toDigits 10 (valOfDecChars (e.take 15) % 97) ++ e.drop 15)
    else e

/-- ethers `ibanChecksum`. -/
def ibanChecksum (address : String) : String :=
  let up := jsToUpper address
  let rearranged := up.data.drop 4 ++ up.data.take 2 ++ ['0', '0']
  let expanded := rearranged.flatMap ibanLookupStr
  let reduced := ibanLoop expanded.length expanded
  let checksum := Nat.toDigits 10 (valOfDecChars reduced % 97)
  String.mk (if checksum.length < 2 then '0' :: checksum else checksum)

/-- ethers `fromBase36`. -/
def fromBase36 (cs : List Char) : ℕ :=
  (cs.map jsToLowerChar).foldl
    (fun acc c => acc * 36 + (if c.toNat ≥ 48 && c.toNat ≤ 57 then c.toNat - 48 else c.toNat - 87))
    0

/-- ethers v6 `getAddress`, with a thrown `invalid address`/`bad checksum`
modelled as `none`.  In the ICAP branch the original recurses on
`"0x" + hexDigits`; that argument is all lower-case, so the recursive call
reduces to the checksummed address when the hex digits pad to length 40 and
to a throw otherwise, which is inlined here. -/
def getAddress (s : String) : Option String :=
  if matchesAddrRegex s then
    let address := if s.data.take 2 = ['0', 'x'] then s else "0x" ++ s
    let result := getChecksumAddress address
    if !(isMixedCaseHex address) || result = address then some result else none
  else if matchesIcapRegex s then
    if String.mk (s.data.drop 2 |>.take 2) = ibanChecksum s then
      let hexDigits := Nat.toDigits 16 (fromBase36 (s.data.drop 4))
      let padded := List.replicate (40 - hexDigits.length) '0' ++ hexDigits
      if padded.length = 40 then some (getChecksumAddress ("0x" ++ String.mk padded))
      else none
    else none
  else none

/-- ethers v6 `isAddress`. -/
def ethersIsAddress (s : String) : Bool :=
  (getAddress s).isSome

/-- `isValidAddress` (`dataHashing.js` and `validationUtils.js`): a
try/catch around `ethers.isAddress` — `isAddress` itself never throws on a
string, so this is the same function. -/
def isValidAddress (s : String) : Bool :=
  ethersIsAddress s

/-! ## Message construction (`constructMessage.js`) -/

/-- The well-known empty-address sentinel. -/
def zeroAddress : String := "0x0000000000000000000000000000000000000000"

/-- `x || zeroAddress` for an optional string field. -/
def strOrZero (o : Option String) : String :=
  match o with
  | none => zeroAddress
  | some s => if s = "" then zeroAddress else s

/-- Truthiness of an optional JS-number field. -/
def numTruthy : Option JSNum → Bool
  | none => false
  | some (.fin q) => q ≠ 0
  | some .nan => false
  | some _ => true

/-- The ordered single-payment signable message — the JS array
`[0, "pay", to_address, token, amount, priorityFee, nonce, priority,
executor]`, with the fields named after their positions. -/
structure PayMessage : Type where
  opcode : ℕ
  opname : String
  to_address : String
  token : String
  amount : JSNum
  priorityFee : JSNum
  nonce : JSNum
  priority : Bool
  executor : String
  deriving DecidableEq, Repr

/-- The parameter bag destructured by `buildMessageSignedForPay`
(`from` is `from_addr`; a missing field is `none`; `network` is
destructured by the JS but never used, the array has no network slot). -/
structure PayBuilderParams : Type where
  from_addr : Option String
  to_address : Option String
  to_identity : Option String
  token : Option String
  amount : Option JSNum
  priorityFee : Option JSNum
  nonce : Option JSNum
  priority : Option Bool
  executor : Option String
  deriving Repr

/-- `buildMessageSignedForPay` (`constructMessage.js`): requires `from`,
`token`, `amount`, `nonce`, `priorityFee` truthy and `priority` not
`undefined`, then emits the nine-slot array in order, defaulting
`to_address` and `executor` to the zero address. -/
def buildMessageSignedForPay (p : PayBuilderParams) : Except String PayMessage :=
  if !(optTruthy p.from_addr) || !(optTruthy p.token) || !(numTruthy p.amount)
      || !(numTruthy p.nonce) || !(numTruthy p.priorityFee) || p.priority = none then
    .error "Missing required parameters for payment signature"
  else
    .ok { opcode := 0
          opname := "pay"
          to_address := strOrZero p.to_address
          token := p.token.getD ""
          amount := p.amount.getD .nan
          priorityFee := p.priorityFee.getD .nan
          nonce := p.nonce.getD .nan
          priority := p.priority.getD false
          executor := strOrZero p.executor }

/-- `BigInt(string)`: trimmed empty string is `0n`, otherwise a fully
consumed decimal or `0x` hexadecimal literal, else a throw. -/
def jsBigIntOfStr (s : String) : Except String ℤ :=
  match jsTrimL s.data with
  | [] => .ok 0
  | c :: cs =>
    if c = '-' ∨ c = '+' then
      let (k, v, rest) := takeDigits cs 0 0
      if k = 0 ∨ rest.length ≠ 0 then .error "Cannot convert to a BigInt"
      else .ok (if c = '-' then -(v : ℤ) else (v : ℤ))
    else if (c :: cs).take 2 = ['0', 'x'] ∨ (c :: cs).take 2 = ['0', 'X'] then
      let (k, v, rest) := takeHexDigits ((c :: cs).drop 2) 0 0
      if k = 0 ∨ rest.length ≠ 0 then .error "Cannot convert to a BigInt"
      else .ok (v : ℤ)
    else
      let (k, v, rest) := takeDigits (c :: cs) 0 0
      if k = 0 ∨ rest.length ≠ 0 then .error "Cannot convert to a BigInt"
      else .ok (v : ℤ)

/-- `BigInt(x)` on the values that reach it. -/
def jsBigIntOf : JSVal → Except String ℤ
  | .big i => .ok i
  | .num (.fin q) => if q.den = 1 then .ok q.num else .error "Cannot convert to a BigInt"
  | .num _ => .error "Cannot convert to a BigInt"
  | .str s => jsBigIntOfStr s
  | .bool b => .ok (if b then 1 else 0)
  | _ => .error "Cannot convert to a BigInt"

/-- `ethers.parseEther` (18 decimals): the string must fully match
`(-?)digits(.digits)?` with at least one digit and at most 18 fraction
digits; the result is the exact integer of wei. -/
def jsParseEther (s : String) : Except String ℤ :=
  let cs := s.data
  let negRest : Bool × List Char :=
    match cs with
    | [] => (false, [])
    | c :: rest => if c = '-' then (true, rest) else (false, c :: rest)
  let (kw, vw, rest) := takeDigits negRest.2 0 0
  let fracPart : ℕ × ℕ × List Char :=
    match rest with
    | [] => (0, 0, ([] : List Char))
    | c :: cs' => if c = '.' then takeDigits cs' 0 0 else (0, 0, c :: cs')
  let (kf, vf, rest') := fracPart
  if rest'.length ≠ 0 then .error "invalid FixedNumber string value"
  else if kw = 0 ∧ kf = 0 then .error "invalid FixedNumber string value"
  else if 18 < kf then .error "too many decimals"
  else
    let units : ℤ := (vw : ℤ) * 10 ^ 18 + (vf : ℤ) * 10 ^ (18 - kf)
    .ok (if negRest.1 then -units else units)

/-- One element of the disperse message's `recipients`. -/
structure DisperseOutRecipient : Type where
  address : Option String
  username : Option String
  amount : ℤ
  deriving DecidableEq, Repr

/-- The keyed disperse-payment signable message. -/
structure DisperseMessage : Type where
  type : String
  network : String
  recipients : List DisperseOutRecipient
  tokenAddress : String
  totalAmount : ℤ
  priorityFee : ℤ
  nonce : ℤ
  priority : String
  executorAddress : Option String
  timestamp : ℕ
  deriving DecidableEq, Repr

/-- The parameter bag destructured by `buildMessageSignedForDispersePay`. -/
structure DisperseBuilderParams : Type where
  recipients : Option (List DisperseRecipient)
  tokenAddress : Option String
  totalAmount : Option String
  priorityFee : Option String
  nonce : JSVal
  priority : Option String
  executorAddress : Option String
  network : String
  deriving Repr

/-- The per-recipient `forEach` validation (throws at the first bad
recipient; the JS message carries the 1-based index, elided here). -/
def validateRecipientsList : List DisperseRecipient → Except String Unit
  | [] => .ok ()
  | r :: rest =>
    if !(optTruthy r.address) && !(optTruthy r.username) then
      .error "Recipient must have either address or username"
    else if r.amount = "" then .error "Recipient must have an amount"
    else validateRecipientsList rest

/-- Username hashing of one recipient (`username && !address`). -/
def processRecipient (r : DisperseRecipient) : Except String DisperseRecipient :=
  if optTruthy r.username && !(optTruthy r.address) then
    match hashPreregisteredUsername (.str (r.username.getD "")) with
    | .ok h => .ok { r with username := some (toString h) }
    | .error e => .error e
  else .ok r

/-- `x || null` for the message's nullable fields. -/
def optOrNull (o : Option String) : Option String :=
  if optTruthy o then o else none

/-- `buildMessageSignedForDispersePay` (`constructMessage.js`).  `now` is
the millisecond clock read by `Date.now()`.  Note that this builder checks
only presence of the fields: it performs no comparison of `totalAmount`
with the sum of the recipient amounts. -/
def buildMessageSignedForDispersePay (now : ℕ) (p : DisperseBuilderParams) :
    Except String DisperseMessage := do
  let rs ← match p.recipients with
    | none => Except.error "Recipients array is required for disperse payment"
    | some rs =>
      if rs.length = 0 then Except.error "Recipients array is required for disperse payment"
      else pure rs
  if !(optTruthy p.tokenAddress) || !(optTruthy p.totalAmount) || !(optTruthy p.priorityFee)
      || !(p.nonce.truthy) || !(optTruthy p.priority) then
    Except.error "Missing required parameters for disperse payment signature"
  let _ ← validateRecipientsList rs
  let processed ← rs.mapM processRecipient
  let outRecipients ← processed.mapM fun r => do
    let wei ← jsParseEther r.amount
    pure (DisperseOutRecipient.mk (optOrNull r.address) (optOrNull r.username) wei)
  let total ← jsParseEther (p.totalAmount.getD "")
  let fee ← jsParseEther (p.priorityFee.getD "")
  let nonceInt ← jsBigIntOf p.nonce
  pure { type := "disperse_payment"
         network := p.network
         recipients := outRecipients
         tokenAddress := p.tokenAddress.getD ""
         totalAmount := total
         priorityFee := fee
         nonce := nonceInt
         priority := jsToLower (p.priority.getD "")
         executorAddress := optOrNull p.executorAddress
         timestamp := now / 1000 }

/-! ## Nonce selection and the payment-signature pipeline
(`signatureUtils.js`)

The external collaborators are passed in as values: `ledger` is the result
of `getNextCurrentSyncNonce` (the ledger RPC, a string on success) and
`random` the result of `generateMersenneTwisterNonce`.  The latter function
is not part of the sources; per the spec it is a uniformly-distributed
random 64-bit source, so its outcomes range over `Except` errors and all
integers in `[0, 2^64)`. -/

/-- `generateNonceByPriority`: the `"high"` comparison is on the
lower-cased priority; the selector returns the nonce string together with
how many times it invoked the ledger query and the random source.  A falsy
collaborator result (empty string, `0n`) is rejected like an error, and
every failure is re-thrown as the single wrapper message. -/
def generateNonceByPriority (ledger : Except String String) (random : Except String ℤ)
    (priority : String) : Except String String × ℕ × ℕ :=
  if jsToLower priority = "high" then
    match ledger with
    | .error _ => (.error "Failed to generate nonce based on priority", 1, 0)
    | .ok syncNonce =>
      if syncNonce = "" then (.error "Failed to generate nonce based on priority", 1, 0)
      else (.ok syncNonce, 1, 0)
  else
    match random with
    | .error _ => (.error "Failed to generate nonce based on priority", 0, 1)
    | .ok n =>
      if n = 0 then (.error "Failed to generate nonce based on priority", 0, 1)
      else (.ok (toString n), 0, 1)

/-- The `signatureData` record assembled by `generatePaymentSignature`. -/
structure SignatureData : Type where
  from_addr : String
  to_address : String
  to_identity : String
  token : String
  amount : JSNum
  priorityFee : JSNum
  nonce : JSNum
  priority : Bool
  executor : String
  deriving DecidableEq, Repr

/-- EIP-712 domain. -/
structure Domain : Type where
  name : String
  version : String
  chainId : ℕ
  verifyingContract : String
  deriving DecidableEq, Repr

/-- A built message, as passed to `createTypedData`: the single-payment
array has no `type` tag; the keyed messages carry theirs. -/
inductive BuiltMessage : Type
  | pay (m : PayMessage)
  | disperse (m : DisperseMessage)
  deriving Repr

/-- The typed-data envelope (the per-variant `types` schema is determined
by the tag and elided). -/
structure TypedData : Type where
  domain : Domain
  primaryType : String
  message : BuiltMessage
  deriving Repr

/-- `createTypedData` (`constructMessage.js`): switches on `message.type`.
A single-payment message is an array, whose `type` is `undefined`, so it
always hits the `default` branch and throws. -/
def createTypedData (m : BuiltMessage) (domain : Domain) : Except String TypedData :=
  match m with
  | .pay _ => .error "Unsupported message type: undefined"
  | .disperse _ => .ok { domain := domain, primaryType := "Message", message := m }

/-- The parameter bag `signSinglePayment` passes to
`generatePaymentSignature` (field-bag values are the raw strings collected
by the conversation; `params.nonce` is also passed in the source but never
read by the function). -/
structure PayParams : Type where
  recipient : String
  tokenAddress : String
  amount : String
  priorityFee : String
  priority : String
  executor : Option String
  evvmContractAddress : Option String
  deriving Repr

/-- The result object of `generatePaymentSignature`. -/
structure PaymentResult : Type where
  signature : String
  message : PayMessage
  typedData : TypedData
  walletAddress : String
  nonce : String
  signatureData : SignatureData
  deriving Repr

/-- `params.recipient.startsWith("0x")`. -/
def startsWith0x (s : String) : Bool :=
  s.data.take 2 = ['0', 'x']

/-- `generatePaymentSignature` (`signatureUtils.js`): wallet creation, the
priority-dependent nonce, the `signatureData` record (note the plain
`parseInt` on the decimal `amount`/`priorityFee` strings), the message
array, the typed data and the signing call; any throw is caught and
re-thrown as the single wrapper message.  `wallet` is the result of
`createWallet` (the signer address) and `sign` that of `signTypedData`. -/
def generatePaymentSignature (wallet : Except String String)
    (ledger : Except String String) (random : Except String ℤ)
    (sign : Except String String) (params : PayParams) (network : String) :
    Except String PaymentResult :=
  match wallet with
  | .error _ => .error "Failed to generate payment signature"
  | .ok walletAddress =>
    match (generateNonceByPriority ledger random params.priority).1 with
    | .error _ => .error "Failed to generate payment signature"
    | .ok nonce =>
      if nonce = "" ∨ nonce = "undefined" ∨ nonce = "null" then
        .error "Failed to generate payment signature"
      else
        let isUsingUsername := !(startsWith0x params.recipient) || params.recipient.data.length ≠ 42
        let signatureData : SignatureData :=
          { from_addr := walletAddress
            to_address := if isUsingUsername then zeroAddress else params.recipient
            to_identity := if isUsingUsername then params.recipient else ""
            token := params.tokenAddress
            amount := jsParseInt params.amount
            priorityFee := jsParseInt params.priorityFee
            nonce := jsParseInt nonce
            priority := params.priority = "high"
            executor := strOrZero params.executor }
        match buildMessageSignedForPay
            { from_addr := some signatureData.from_addr
              to_address := some signatureData.to_address
              to_identity := some signatureData.to_identity
              token := some signatureData.token
              amount := some signatureData.amount
              priorityFee := some signatureData.priorityFee
              nonce := some signatureData.nonce
              priority := some signatureData.priority
              executor := some signatureData.executor } with
        | .error _ => .error "Failed to generate payment signature"
        | .ok message =>
          let domain : Domain :=
            { name := "EVVM Signature Constructor"
              version := "1"
              chainId := if network = "ethereum" then 11155111 else 421614
              verifyingContract := strOrZero params.evvmContractAddress }
          match createTypedData (.pay message) domain with
          | .error _ => .error "Failed to generate payment signature"
          | .ok typedData =>
            match sign with
            | .error _ => .error "Failed to generate payment signature"
            | .ok signature =>
              .ok { signature := signature
                    message := message
                    typedData := typedData
                    walletAddress := walletAddress
                    nonce := nonce
                    signatureData := signatureData }

/-- `verifyTypedDataSignature` (`walletUtils.js` / `signatureUtils.js`):
`recover` is the result of `ethers.verifyTypedData`; a throw during
recovery yields `false`, otherwise the recovered and expected addresses
are compared lower-cased. -/
def verifyTypedDataSignature (recover : Except String String) (expectedAddress : String) : Bool :=
  match recover with
  | .error _ => false
  | .ok recoveredAddress => jsToLower recoveredAddress = jsToLower expectedAddress

/-! ## Session store and handlers
(`sessionUtils.js`, `operationHandlers.js`, `messageHandlers.js`) -/

/-- The session's wallet record. -/
structure Wallet : Type where
  address : String
  privateKey : Option String
  deriving DecidableEq, Repr

/-- The single-payment portion of the dynamic `operationData` field bag
(including its `step` tag, which the handlers store inside the bag). -/
structure OperationData : Type where
  step : Option String
  recipientType : Option String
  recipient : Option String
  tokenAddress : Option String
  amount : Option String
  priorityFee : Option String
  priority : Option String
  nonce : Option String
  deriving DecidableEq, Repr

/-- The fresh bag `{}`. -/
def emptyOperationData : OperationData :=
  { step := none, recipientType := none, recipient := none, tokenAddress := none,
    amount := none, priorityFee := none, priority := none, nonce := none }

/-- A user session (`sessionUtils.js`; the timestamps, which no claim
touches, are elided). -/
structure Session : Type where
  wallet : Option Wallet
  network : String
  currentOperation : Option String
  operationData : OperationData
  deriving DecidableEq, Repr

/-- `clearCurrentOperation`: resets the operation name and its bag. -/
def clearCurrentOperation (s : Session) : Session :=
  { s with currentOperation := none, operationData := emptyOperationData }

/-- `!userSession.wallet || !userSession.wallet.privateKey`, negated. -/
def walletHasKey (s : Session) : Bool :=
  match s.wallet with
  | none => false
  | some w => optTruthy w.privateKey

/-- Outcome tag for `signSinglePayment` (which chat message was sent). -/
inductive SignOutcome : Type
  | noWallet
  | signed
  | failed
  deriving DecidableEq, Repr

/-- `signSinglePayment` (`operationHandlers.js`): with no connected wallet
or private key it returns leaving the session untouched; otherwise `gen`
is the result of the awaited `generatePaymentSignature`, and **both** the
success path and the catch handler run `clearCurrentOperation`. -/
def signSinglePayment (gen : Except String PaymentResult) (s : Session) :
    Session × SignOutcome :=
  if walletHasKey s then
    match gen with
    | .ok _ => (clearCurrentOperation s, .signed)
    | .error _ => (clearCurrentOperation s, .failed)
  else (s, .noWallet)

/-- `handleSinglePaymentAmount` (`messageHandlers.js`): trims the text,
rejects it with a re-prompt (bag untouched) unless `isValidAmount`
accepts, and otherwise stores the trimmed amount and advances the `step`
to `"priority_fee"`. -/
def handleSinglePaymentAmount (text : String) (od : OperationData) : OperationData :=
  let amount := jsTrim text
  if !(isValidAmount (.str amount)) then od
  else { od with amount := some amount, step := some "priority_fee" }

/-! ## Decimal numerals (for stating the nonce-validator claim) -/

/-- The character of a decimal digit. -/
def digitCharOf (d : ℕ) : Char := Char.ofNat (48 + d)

/-- The canonical decimal numeral of a natural number. -/
def natNumeral (n : ℕ) : String :=
  if n = 0 then "0" else String.mk ((Nat.digits 10 n).reverse.map digitCharOf)

/-- A filled-in session sitting at the confirmation of a single payment. -/
def c4Session : Session :=
  { wallet := some { address := "0xW", privateKey := some "0xkey" }
    network := "ethereum"
    currentOperation := some "single_payment"
    operationData :=
      { step := some "priority"
        recipientType := some "address"
        recipient := some "0xaaaaaaaaaaaaaaaaaaaaaaaaaaaaaaaaaaaaaaaaaa"
        tokenAddress := some zeroAddress
        amount := some "1.5"
        priorityFee := some "0.01"
        priority := some "low"
        nonce := none } }

/-- The two address-form recipients of the disperse scenario, amounts
`"2"` and `"3"`. -/
def c2Recipients : List DisperseRecipient :=
  [⟨some ("0x" ++ String.mk (List.replicate 40 'a')), none, "2"⟩,
   ⟨some ("0x" ++ String.mk (List.replicate 40 'b')), none, "3"⟩]

/-- The disperse-payment field bag with a given declared total. -/
def c2Bag (total : String) : DisperseBuilderParams :=
  { recipients := some c2Recipients
    tokenAddress := some zeroAddress
    totalAmount := some total
    priorityFee := some "0.01"
    nonce := .str "7"
    priority := some "low"
    executorAddress := none
    network := "ethereum" }

/-- The single-payment parameter bag of the end-to-end scenario:
recipient `0xaaaa…aaaa`, token the zero address, amount `"1.5"`, fee
`"0.01"`, priority `"low"`. -/
def c1Params : PayParams :=
  { recipient := "0x" ++ String.mk (List.replicate 40 'a')
    tokenAddress := zeroAddress
    amount := "1.5"
    priorityFee := "0.01"
    priority := "low"
    executor := none
    evvmContractAddress := none }

theorem ratAdd_eq (a b : ℚ) : ratAdd a b = a + b := by
  rw [ratAdd, Rat.mkRat_eq_div]
  push_cast
  conv_rhs => rw [← Rat.num_div_den a, ← Rat.num_div_den b]
  have ha : ((a.den : ℚ)) ≠ 0 := by exact_mod_cast a.den_nz
  have hb : ((b.den : ℚ)) ≠ 0 := by exact_mod_cast b.den_nz
  field_simp
  try ring

theorem ratSub_eq (a b : ℚ) : ratSub a b = a - b := by
  rw [ratSub, Rat.mkRat_eq_div]
  push_cast
  conv_rhs => rw [← Rat.num_div_den a, ← Rat.num_div_den b]
  have ha : ((a.den : ℚ)) ≠ 0 := by exact_mod_cast a.den_nz
  have hb : ((b.den : ℚ)) ≠ 0 := by exact_mod_cast b.den_nz
  field_simp
  ring

theorem ratAbs_eq (a : ℚ) : ratAbs a = |a| := by
  rw [ratAbs, Rat.mkRat_eq_div]
  conv_rhs => rw [← Rat.num_div_den a]
  rw [abs_div]
  have : |((a.den : ℚ))| = (a.den : ℚ) := abs_of_nonneg (by positivity)
  rw [this]
  push_cast
  rfl

example : isValidAmount (.str "1.5") = true := by decide

example : isValidAmount (.str "-1") = false := by decide

example : isValidPriorityFee (.str "0.01") = true := by decide

example : isValidPriorityFee (.num (.fin 0)) = true := by decide

example : isValidNonce (.num (.fin 0)) = false := by decide

example : isValidNonce (.big 0) = false := by decide

example : isValidNonce (.str "0") = false := by decide

example : isValidNonce (.str "7") = true := by decide

example : isValidNonce (.num (.fin (mkRat 3 2))) = false := by decide

example :
    validateTotalAmount [⟨none, some "bob_123", "2"⟩, ⟨some "0xaa", none, "3"⟩] "5" = true := by
  decide

example :
    validateTotalAmount [⟨none, some "bob_123", "2"⟩, ⟨some "0xaa", none, "3"⟩] "5.000002" =
      false := by
  decide

example :
    validateTotalAmount [⟨none, some "bob_123", "2"⟩, ⟨some "0xaa", none, "3"⟩] "5.000001" =
      false := by
  decide

example :
    validateTotalAmount [⟨none, some "bob_123", "2"⟩, ⟨some "0xaa", none, "3"⟩] "6" = false := by
  decide

example : jsParseFloat "1.5" = .fin (mkRat 3 2) := by decide

example : jsParseFloat "  -2.5e2" = .fin (-250) := by decide

example : jsParseFloat "abc" = .nan := by decide

example : jsParseFloat "Infinity" = .inf := by decide

example : jsParseInt "1.5" = .fin 1 := by decide

example : jsParseInt "0.01" = .fin 0 := by decide

example : jsParseInt "0xff" = .fin 255 := by decide

example : jsParseInt "-42" = .fin (-42) := by decide

example : jsTrim "  Alice " = "Alice" := by decide

example : jsToLower "Alice" = "alice" := by decide

/-! ## Character and string lemmas -/

theorem char_toNat_ofNat_of_lt {n : ℕ} (h : n < 55296) : (Char.ofNat n).toNat = n := by
  have hv : n.isValidChar := Or.inl h
  rw [Char.ofNat, dif_pos hv]
  simp [Char.ofNatAux, Char.toNat, UInt32.toNat]

theorem char_ne_of_toNat_ne {c d : Char} (h : c.toNat ≠ d.toNat) : c ≠ d :=
  fun he => h (congrArg Char.toNat he)

theorem jsToLowerChar_of_upper {c : Char} (h : 65 ≤ c.toNat ∧ c.toNat ≤ 90) :
    (jsToLowerChar c).toNat = c.toNat + 32 := by
  rw [jsToLowerChar, if_pos h, char_toNat_ofNat_of_lt (by omega)]

theorem jsToLowerChar_of_not_upper {c : Char} (h : ¬(65 ≤ c.toNat ∧ c.toNat ≤ 90)) :
    jsToLowerChar c = c := by
  rw [jsToLowerChar, if_neg h]

theorem jsIsWhitespace_false_of_range {c : Char} (h1 : 33 ≤ c.toNat) (h2 : c.toNat ≤ 126) :
    jsIsWhitespace c = false := by
  rw [jsIsWhitespace]
  simp only [Bool.or_eq_false_iff, decide_eq_false_iff_not]
  omega

/-- Lower-casing never makes a character (non-)whitespace. -/
theorem jsIsWhitespace_jsToLowerChar (c : Char) :
    jsIsWhitespace (jsToLowerChar c) = jsIsWhitespace c := by
  by_cases h : 65 ≤ c.toNat ∧ c.toNat ≤ 90
  · have hl := jsToLowerChar_of_upper h
    rw [jsIsWhitespace_false_of_range (by omega) (by omega),
      jsIsWhitespace_false_of_range (c := c) (by omega) (by omega)]
  · rw [jsToLowerChar_of_not_upper h]

/-- Lower-casing is idempotent on characters. -/
theorem jsToLowerChar_idem (c : Char) : jsToLowerChar (jsToLowerChar c) = jsToLowerChar c := by
  by_cases h : 65 ≤ c.toNat ∧ c.toNat ≤ 90
  · have hl := jsToLowerChar_of_upper h
    exact jsToLowerChar_of_not_upper (by omega)
  · rw [jsToLowerChar_of_not_upper h, jsToLowerChar_of_not_upper h]

/-- `dropWhile` commutes with `map f` when `f` preserves the predicate. -/
theorem dropWhile_map_of_pres (f : Char → Char) (p : Char → Bool)
    (hf : ∀ c, p (f c) = p c) (l : List Char) :
    (l.map f).dropWhile p = (l.dropWhile p).map f := by
  induction l with
  | nil => rfl
  | cons c cs ih =>
    simp only [List.map_cons, List.dropWhile_cons, hf c]
    by_cases h : p c
    · simp only [h, if_true]
      exact ih
    · simp [h]

theorem data_mk (l : List Char) : (String.mk l).data = l := rfl

theorem string_eq_empty_iff {s : String} : s = "" ↔ s.data = [] := by
  rw [String.ext_iff]

theorem jsTrimL_eq (cs : List Char) :
    jsTrimL cs = List.rdropWhile jsIsWhitespace (cs.dropWhile jsIsWhitespace) := rfl

theorem dropWhile_rdropWhile {p : Char → Bool} {l : List Char}
    (h : l.dropWhile p = l) : (l.rdropWhile p).dropWhile p = l.rdropWhile p := by
  rcases hY : l.rdropWhile p with _ | ⟨y, ys⟩
  · rfl
  · obtain ⟨t, ht⟩ := List.rdropWhile_prefix p l
    rw [hY] at ht
    subst ht
    rw [List.dropWhile_eq_self_iff] at h
    have hpy : ¬p y = true := by
      have hy := h (by simp)
      simpa using hy
    rw [List.dropWhile_eq_self_iff]
    intro hl
    exact hpy

theorem jsTrimL_idem (cs : List Char) : jsTrimL (jsTrimL cs) = jsTrimL cs := by
  rw [jsTrimL_eq, jsTrimL_eq]
  have h1 : (cs.dropWhile jsIsWhitespace).dropWhile jsIsWhitespace
      = cs.dropWhile jsIsWhitespace := List.dropWhile_idempotent _ _
  rw [dropWhile_rdropWhile h1]
  exact List.rdropWhile_idempotent _ _

theorem jsTrimL_map_lower (cs : List Char) :
    jsTrimL (cs.map jsToLowerChar) = (jsTrimL cs).map jsToLowerChar := by
  rw [jsTrimL, jsTrimL]
  rw [dropWhile_map_of_pres _ _ jsIsWhitespace_jsToLowerChar]
  rw [← List.map_reverse]
  rw [dropWhile_map_of_pres _ _ jsIsWhitespace_jsToLowerChar]
  rw [← List.map_reverse]

theorem jsTrim_jsToLower (s : String) : jsTrim (jsToLower s) = jsToLower (jsTrim s) := by
  simp only [jsTrim, jsToLower, data_mk]
  rw [jsTrimL_map_lower]

theorem jsTrim_idem (s : String) : jsTrim (jsTrim s) = jsTrim s := by
  simp only [jsTrim, data_mk]
  rw [jsTrimL_idem]

theorem map_lower_idem (l : List Char) :
    (l.map jsToLowerChar).map jsToLowerChar = l.map jsToLowerChar := by
  induction l with
  | nil => rfl
  | cons c cs ih => simp [jsToLowerChar_idem, ih]

theorem jsToLower_idem (s : String) : jsToLower (jsToLower s) = jsToLower s := by
  simp only [jsToLower, data_mk]
  rw [map_lower_idem]

theorem jsToLower_eq_empty_iff {s : String} : jsToLower s = "" ↔ s = "" := by
  rw [string_eq_empty_iff, string_eq_empty_iff, jsToLower, data_mk]
  simp

/-- The username hasher is invariant under pre-normalizing its input,
provided the normalized form is non-empty. -/
theorem hash_normalization (u : String) (h : jsTrim u ≠ "") :
    hashPreregisteredUsername (.str u)
      = hashPreregisteredUsername (.str (jsToLower (jsTrim u))) := by
  have hu : u ≠ "" := by
    intro he
    exact h (by rw [he]; rfl)
  have hv : jsToLower (jsTrim u) ≠ "" := by
    rw [Ne, jsToLower_eq_empty_iff]
    exact h
  rw [hashPreregisteredUsername, hashPreregisteredUsername]
  rw [if_neg hu, if_neg hv]
  have hinner : jsToLower (jsTrim (jsToLower (jsTrim u))) = jsToLower (jsTrim u) := by
    rw [jsTrim_jsToLower, jsTrim_idem, jsToLower_idem]
  rw [hinner]

/-! ## Numeral-parsing lemmas -/

theorem decDigit?_digitCharOf {d : ℕ} (h : d < 10) : decDigit? (digitCharOf d) = some d := by
  rw [digitCharOf, decDigit?]
  have ht : (Char.ofNat (48 + d)).toNat = 48 + d := char_toNat_ofNat_of_lt (by omega)
  rw [ht, if_pos (by omega)]
  congr 1
  omega

theorem toNat_digitCharOf {d : ℕ} (h : d < 10) : (digitCharOf d).toNat = 48 + d := by
  rw [digitCharOf]
  exact char_toNat_ofNat_of_lt (by omega)

theorem takeDigits_all_digits (ds : List ℕ) (hds : ∀ d ∈ ds, d < 10) :
    ∀ (k acc : ℕ), takeDigits (ds.map digitCharOf) k acc =
      (k + ds.length, ds.foldl (fun a d => a * 10 + d) acc, []) := by
  induction ds with
  | nil =>
    intro k acc
    simp [takeDigits]
  | cons d ds ih =>
    intro k acc
    have hd : d < 10 := hds d (by simp)
    simp only [List.map_cons, takeDigits, decDigit?_digitCharOf hd]
    rw [ih (fun x hx => hds x (by simp [hx])) (k + 1) (acc * 10 + d)]
    simp only [List.length_cons, List.foldl_cons, Prod.mk.injEq, and_true]
    omega

theorem foldl_digits_value (L : List ℕ) :
    L.reverse.foldl (fun a d => a * 10 + d) 0 = Nat.ofDigits 10 L := by
  rw [List.foldl_reverse]
  induction L with
  | nil => simp [Nat.ofDigits_nil]
  | cons d ds ih =>
    rw [List.foldr_cons, Nat.ofDigits_cons, ih]
    ring

/-- The digit list underlying a positive numeral: big-endian digits of `n`,
nonempty, each `< 10`, leading digit nonzero, value `n`. -/
theorem natNumeral_data (n : ℕ) (hn : 0 < n) :
    ∃ d0 dr, (natNumeral n).data = (d0 :: dr).map digitCharOf ∧
      (∀ d ∈ d0 :: dr, d < 10) ∧ 1 ≤ d0 ∧
      (d0 :: dr).foldl (fun a d => a * 10 + d) 0 = n := by
  have hne : Nat.digits 10 n ≠ [] := Nat.digits_ne_nil_iff_ne_zero.mpr (by omega)
  rcases hrev : (Nat.digits 10 n).reverse with _ | ⟨d0, dr⟩
  · exact absurd (by simpa using congrArg List.reverse hrev) hne
  · refine ⟨d0, dr, ?_, ?_, ?_, ?_⟩
    · rw [natNumeral, if_neg (by omega)]
      rw [data_mk, hrev]
    · intro d hd
      have : d ∈ Nat.digits 10 n := by
        rw [← List.mem_reverse, hrev]
        exact hd
      exact Nat.digits_lt_base (by norm_num) this
    · have hlast := Nat.getLast_digit_ne_zero 10 (m := n) (by omega)
      have hdig : Nat.digits 10 n = dr.reverse ++ [d0] := by
        have h2 := congrArg List.reverse hrev
        simpa using h2
      have h1 : (Nat.digits 10 n).getLast? = some d0 := by
        rw [hdig]
        simp
      have h2 : (Nat.digits 10 n).getLast? = some ((Nat.digits 10 n).getLast hne) :=
        List.getLast?_eq_getLast _ hne
      rw [h1] at h2
      have h3 : d0 = (Nat.digits 10 n).getLast hne := by
        exact Option.some.inj h2
      omega
    · have := foldl_digits_value (Nat.digits 10 n)
      rw [hrev] at this
      rw [this]
      exact Nat.ofDigits_digits 10 n

theorem jsParseInt_natNumeral (n : ℕ) (hn : 0 < n) : jsParseInt (natNumeral n) = .fin (n : ℚ) := by
  obtain ⟨d0, dr, hdata, hlt, hd0, hval⟩ := natNumeral_data n hn
  have hd0lt : d0 < 10 := hlt d0 (List.mem_cons_self _ _)
  have ht0 : (digitCharOf d0).toNat = 48 + d0 := toNat_digitCharOf hd0lt
  have hmap : (natNumeral n).data = digitCharOf d0 :: dr.map digitCharOf := by
    rw [hdata, List.map_cons]
  have hws : jsIsWhitespace (digitCharOf d0) = false :=
    jsIsWhitespace_false_of_range (by omega) (by omega)
  have hplus : digitCharOf d0 ≠ '+' := char_ne_of_toNat_ne (by
    have h43 : ('+').toNat = 43 := by decide
    omega)
  have hminus : digitCharOf d0 ≠ '-' := char_ne_of_toNat_ne (by
    have h45 : ('-').toNat = 45 := by decide
    omega)
  have hne0 : digitCharOf d0 ≠ '0' := char_ne_of_toNat_ne (by
    have h48 : ('0').toNat = 48 := by decide
    omega)
  have htail : takeDigits (digitCharOf d0 :: dr.map digitCharOf) 0 0
      = (0 + (d0 :: dr).length, n, []) := by
    have h := takeDigits_all_digits (d0 :: dr) hlt 0 0
    rw [List.map_cons] at h
    rw [h, hval]
  have hhex : ¬((digitCharOf d0 :: dr.map digitCharOf).take 2 = ['0', 'x']
      ∨ (digitCharOf d0 :: dr.map digitCharOf).take 2 = ['0', 'X']) := by
    intro hc
    rcases hc with hc | hc <;>
      (simp only [List.take_succ_cons, List.cons.injEq] at hc
       exact hne0 hc.1)
  rw [jsParseInt, hmap]
  simp only [List.dropWhile_cons, hws, Bool.false_eq_true, if_false]
  rw [takeSign, if_neg hplus, if_neg hminus]
  simp only [if_neg hhex]
  rw [htail]
  have hk : ¬(0 + (d0 :: dr).length = 0) := by simp
  simp only [hk, if_false]
  congr 1
  push_cast
  ring

theorem data_append (a b : String) : (a ++ b).data = a.data ++ b.data := rfl

theorem jsParseInt_neg_natNumeral (n : ℕ) (hn : 0 < n) :
    jsParseInt ("-" ++ natNumeral n) = .fin (-(n : ℚ)) := by
  obtain ⟨d0, dr, hdata, hlt, hd0, hval⟩ := natNumeral_data n hn
  have hd0lt : d0 < 10 := hlt d0 (List.mem_cons_self _ _)
  have ht0 : (digitCharOf d0).toNat = 48 + d0 := toNat_digitCharOf hd0lt
  have hmap : ("-" ++ natNumeral n).data = '-' :: (digitCharOf d0 :: dr.map digitCharOf) := by
    rw [data_append, hdata, List.map_cons]
    rfl
  have hne0 : digitCharOf d0 ≠ '0' := char_ne_of_toNat_ne (by
    have h48 : ('0').toNat = 48 := by decide
    omega)
  have htail : takeDigits (digitCharOf d0 :: dr.map digitCharOf) 0 0
      = (0 + (d0 :: dr).length, n, []) := by
    have h := takeDigits_all_digits (d0 :: dr) hlt 0 0
    rw [List.map_cons] at h
    rw [h, hval]
  have hhex : ¬((digitCharOf d0 :: dr.map digitCharOf).take 2 = ['0', 'x']
      ∨ (digitCharOf d0 :: dr.map digitCharOf).take 2 = ['0', 'X']) := by
    intro hc
    rcases hc with hc | hc <;>
      (simp only [List.take_succ_cons, List.cons.injEq] at hc
       exact hne0 hc.1)
  rw [jsParseInt, hmap]
  have hwsm : jsIsWhitespace '-' = false := by decide
  simp only [List.dropWhile_cons, hwsm, Bool.false_eq_true, if_false]
  rw [takeSign, if_neg (by decide : ¬('-' : Char) = '+'), if_pos rfl]
  simp only [if_neg hhex]
  rw [htail]
  have hk : ¬(0 + (d0 :: dr).length = 0) := by simp
  simp only [hk, if_false]
  congr 1
  push_cast
  ring

theorem jsParseFloat_natNumeral (n : ℕ) (hn : 0 < n) :
    jsParseFloat (natNumeral n) = .fin (n : ℚ) := by
  obtain ⟨d0, dr, hdata, hlt, hd0, hval⟩ := natNumeral_data n hn
  have hd0lt : d0 < 10 := hlt d0 (List.mem_cons_self _ _)
  have ht0 : (digitCharOf d0).toNat = 48 + d0 := toNat_digitCharOf hd0lt
  have hmap : (natNumeral n).data = digitCharOf d0 :: dr.map digitCharOf := by
    rw [hdata, List.map_cons]
  have hws : jsIsWhitespace (digitCharOf d0) = false :=
    jsIsWhitespace_false_of_range (by omega) (by omega)
  have hplus : digitCharOf d0 ≠ '+' := char_ne_of_toNat_ne (by
    have h43 : ('+').toNat = 43 := by decide
    omega)
  have hminus : digitCharOf d0 ≠ '-' := char_ne_of_toNat_ne (by
    have h45 : ('-').toNat = 45 := by decide
    omega)
  have hneI : digitCharOf d0 ≠ 'I' := char_ne_of_toNat_ne (by
    have h73 : ('I').toNat = 73 := by decide
    omega)
  have htail : takeDigits (digitCharOf d0 :: dr.map digitCharOf) 0 0
      = (0 + (d0 :: dr).length, n, []) := by
    have h := takeDigits_all_digits (d0 :: dr) hlt 0 0
    rw [List.map_cons] at h
    rw [h, hval]
  have hinf : ¬((digitCharOf d0 :: dr.map digitCharOf).take 8
      = ['I', 'n', 'f', 'i', 'n', 'i', 't', 'y']) := by
    intro hc
    simp only [List.take_succ_cons, List.cons.injEq] at hc
    exact hneI hc.1
  rw [jsParseFloat, hmap]
  simp only [List.dropWhile_cons, hws, Bool.false_eq_true, if_false]
  rw [takeSign, if_neg hplus, if_neg hminus]
  rw [parseFloatBody, if_neg hinf]
  rw [htail]
  have hk : ((0 + (d0 :: dr).length = 0 : Bool) && ((0 : ℕ) = 0 : Bool)) = false := by simp
  simp only [hk, Bool.false_eq_true, if_false]
  have hexp : parseExponent ([] : List Char) = 0 := rfl
  simp only [hexp]
  rw [if_pos (by omega : (0 : ℤ) ≤ 0)]
  have hden : (10 : ℕ) ^ (0 : ℕ) = 1 := by norm_num
  simp only [hden]
  rw [Rat.mkRat_one]
  push_cast
  simp

theorem jsParseFloat_neg_natNumeral (n : ℕ) (hn : 0 < n) :
    jsParseFloat ("-" ++ natNumeral n) = .fin (-(n : ℚ)) := by
  obtain ⟨d0, dr, hdata, hlt, hd0, hval⟩ := natNumeral_data n hn
  have hd0lt : d0 < 10 := hlt d0 (List.mem_cons_self _ _)
  have ht0 : (digitCharOf d0).toNat = 48 + d0 := toNat_digitCharOf hd0lt
  have hmap : ("-" ++ natNumeral n).data = '-' :: (digitCharOf d0 :: dr.map digitCharOf) := by
    rw [data_append, hdata, List.map_cons]
    rfl
  have hneI : digitCharOf d0 ≠ 'I' := char_ne_of_toNat_ne (by
    have h73 : ('I').toNat = 73 := by decide
    omega)
  have htail : takeDigits (digitCharOf d0 :: dr.map digitCharOf) 0 0
      = (0 + (d0 :: dr).length, n, []) := by
    have h := takeDigits_all_digits (d0 :: dr) hlt 0 0
    rw [List.map_cons] at h
    rw [h, hval]
  have hinf : ¬((digitCharOf d0 :: dr.map digitCharOf).take 8
      = ['I', 'n', 'f', 'i', 'n', 'i', 't', 'y']) := by
    intro hc
    simp only [List.take_succ_cons, List.cons.injEq] at hc
    exact hneI hc.1
  rw [jsParseFloat, hmap]
  have hwsm : jsIsWhitespace '-' = false := by decide
  simp only [List.dropWhile_cons, hwsm, Bool.false_eq_true, if_false]
  rw [takeSign, if_neg (by decide : ¬('-' : Char) = '+'), if_pos rfl]
  rw [parseFloatBody, if_neg hinf]
  rw [htail]
  have hk : ((0 + (d0 :: dr).length = 0 : Bool) && ((0 : ℕ) = 0 : Bool)) = false := by simp
  simp only [hk, Bool.false_eq_true, if_false]
  have hexp : parseExponent ([] : List Char) = 0 := rfl
  simp only [hexp]
  rw [if_pos (by omega : (0 : ℤ) ≤ 0)]
  have hden : (10 : ℕ) ^ (0 : ℕ) = 1 := by norm_num
  simp only [hden]
  rw [Rat.mkRat_one]
  push_cast
  simp

/-! ## Claim theorems -/

/-- C3 counterexample: with declared priority `"low"` and a random source
that **succeeds** returning `0` (a value a uniform 64-bit source can
produce), the nonce selector still fails — so it does not fail *only* when
the random source itself errors, contradicting the claim. -/
theorem claim_C3_counterexample :
    generateNonceByPriority (.error "unused ledger") (.ok 0) "low"
      = (.error "Failed to generate nonce based on priority", 0, 1) := rfl

/-- C3 (amended): per signing attempt, priority `"high"`
(case-insensitive) invokes the ledger nonce query exactly once and never
the random source; any other priority (in particular `"low"`) invokes the
random source exactly once and never the ledger; and for `"low"` the
selector fails exactly when the random source errors **or returns the
falsy nonce `0`**. -/
theorem claim_C3_nonce_selector (ledger : Except String String)
    (random : Except String ℤ) (priority : String) :
    (jsToLower priority = "high" →
      (generateNonceByPriority ledger random priority).2.1 = 1 ∧
      (generateNonceByPriority ledger random priority).2.2 = 0) ∧
    (jsToLower priority ≠ "high" →
      (generateNonceByPriority ledger random priority).2.1 = 0 ∧
      (generateNonceByPriority ledger random priority).2.2 = 1) ∧
    (jsToLower priority = "low" →
      ((∃ e, (generateNonceByPriority ledger random priority).1 = .error e) ↔
        (∃ e, random = .error e) ∨ random = .ok 0)) := by
  refine ⟨fun hh => ?_, fun hh => ?_, fun hl => ?_⟩
  · rw [generateNonceByPriority.eq_def, if_pos hh]
    cases ledger with
    | error e => exact ⟨rfl, rfl⟩
    | ok v =>
      by_cases hv : v = ""
      · simp [hv]
      · simp [hv]
  · rw [generateNonceByPriority.eq_def, if_neg hh]
    cases random with
    | error e => exact ⟨rfl, rfl⟩
    | ok n =>
      by_cases hn : n = 0
      · simp [hn]
      · simp [hn]
  · have hh : jsToLower priority ≠ "high" := by
      rw [hl]
      decide
    rw [generateNonceByPriority.eq_def, if_neg hh]
    cases random with
    | error e =>
      simp
    | ok n =>
      by_cases hn : n = 0
      · simp [hn]
      · simp [hn]

/-- C3 witness: at priority `"low"` with working collaborators the random
source is consulted once and the ledger never. -/
theorem claim_C3_witness :
    (generateNonceByPriority (.ok "5") (.ok 7) "low").2.1 = 0 ∧
    (generateNonceByPriority (.ok "5") (.ok 7) "low").2.2 = 1 :=
  (claim_C3_nonce_selector (.ok "5") (.ok 7) "low").2.1 (by decide)

/-- C4 counterexample: when the signing attempt of a confirmed single
payment fails, the handler's catch block **clears** the active operation
(kind and collected field bag), so the session is *not* left unchanged as
the claim states. -/
theorem claim_C4_counterexample :
    (signSinglePayment (.error "Failed to generate payment signature") c4Session).1.currentOperation
      = none ∧
    (signSinglePayment (.error "Failed to generate payment signature") c4Session).1.operationData
      = emptyOperationData ∧
    c4Session.currentOperation = some "single_payment" ∧
    c4Session.operationData ≠ emptyOperationData := by
  refine ⟨rfl, rfl, rfl, by decide⟩

/-- C4 (amended): whenever a wallet with a private key is connected,
`signSinglePayment` ends by clearing the active operation — on *both* the
success path and every failure (nonce query, nonce generation, signing);
the user must restart the flow and re-enter the fields.  Only the
missing-wallet early return leaves the session untouched. -/
theorem claim_C4_sign_clears_operation (gen : Except String PaymentResult) (s : Session) :
    (walletHasKey s = true →
      (signSinglePayment gen s).1.currentOperation = none ∧
      (signSinglePayment gen s).1.operationData = emptyOperationData) ∧
    (walletHasKey s = false → (signSinglePayment gen s).1 = s) := by
  constructor
  · intro hk
    rw [signSinglePayment.eq_def, if_pos hk]
    cases gen with
    | ok r => exact ⟨rfl, rfl⟩
    | error e => exact ⟨rfl, rfl⟩
  · intro hk
    rw [signSinglePayment.eq_def, if_neg (by rw [hk]; exact Bool.false_ne_true)]

/-- C4 witness: the clearing conclusion at the concrete confirmed
session. -/
theorem claim_C4_witness :
    (signSinglePayment (.error "boom") c4Session).1.currentOperation = none ∧
    (signSinglePayment (.error "boom") c4Session).1.operationData = emptyOperationData :=
  (claim_C4_sign_clears_operation (.error "boom") c4Session).1 (by decide)

/-- C6: at the `amount` step of a single payment, an input rejected by
`isValidAmount` leaves the step and the whole collected field bag
unchanged; an accepted input stores the trimmed value under `amount` and
advances the step to `"priority_fee"`, leaving every other field
unchanged. -/
theorem claim_C6_amount_step (text : String) (od : OperationData) :
    (isValidAmount (.str (jsTrim text)) = false →
      handleSinglePaymentAmount text od = od) ∧
    (isValidAmount (.str (jsTrim text)) = true →
      handleSinglePaymentAmount text od
        = { od with amount := some (jsTrim text), step := some "priority_fee" }) := by
  constructor
  · intro hv
    rw [handleSinglePaymentAmount]
    simp only [hv, Bool.not_false, if_true]
  · intro hv
    rw [handleSinglePaymentAmount]
    simp only [hv, Bool.not_true, Bool.false_eq_true, if_false]

/-- C6 witness: a rejected input (`"abc"`) leaves a concrete bag unchanged
and an accepted one (`" 1.5 "`) stores `"1.5"` and advances. -/
theorem claim_C6_witness :
    handleSinglePaymentAmount "abc" (c4Session.operationData) = c4Session.operationData ∧
    handleSinglePaymentAmount " 1.5 " emptyOperationData
      = { emptyOperationData with amount := some "1.5", step := some "priority_fee" } :=
  ⟨(claim_C6_amount_step "abc" c4Session.operationData).1 (by decide),
   (claim_C6_amount_step " 1.5 " emptyOperationData).2 (by decide)⟩

/-- C8: typed-data signature verification returns `false` whenever
recovery throws, and otherwise returns exactly the lower-cased
(case-insensitive) equality of the recovered and expected addresses. -/
theorem claim_C8_verify :
    (∀ (e expected : String), verifyTypedDataSignature (.error e) expected = false) ∧
    (∀ (a expected : String),
      verifyTypedDataSignature (.ok a) expected
        = decide (jsToLower a = jsToLower expected)) := by
  constructor
  · intro e expected
    rfl
  · intro a expected
    rfl

/-- C10: the single-payment message builder treats the falsy number `0` as
a missing field: with every required field present but `priorityFee = 0`
(and likewise `amount = 0` or `nonce = 0`) it throws its
missing-required-parameters error, even though `isValidPriorityFee`
accepts `0` — so a zero-priority-fee payment can never reach signing. -/
theorem claim_C10_zero_falsy :
    (∀ p : PayBuilderParams, p.priorityFee = some (.fin 0) →
      buildMessageSignedForPay p
        = .error "Missing required parameters for payment signature") ∧
    (∀ p : PayBuilderParams, p.amount = some (.fin 0) →
      buildMessageSignedForPay p
        = .error "Missing required parameters for payment signature") ∧
    (∀ p : PayBuilderParams, p.nonce = some (.fin 0) →
      buildMessageSignedForPay p
        = .error "Missing required parameters for payment signature") ∧
    isValidPriorityFee (.num (.fin 0)) = true := by
  refine ⟨fun p hp => ?_, fun p hp => ?_, fun p hp => ?_, by decide⟩
  · rw [buildMessageSignedForPay, if_pos]
    simp [hp, numTruthy]
  · rw [buildMessageSignedForPay, if_pos]
    simp [hp, numTruthy]
  · rw [buildMessageSignedForPay, if_pos]
    simp [hp, numTruthy]

/-- C10 witness: a fully populated bag with `priorityFee = 0` is rejected
by the builder while the validator accepts the zero fee. -/
theorem claim_C10_witness :
    buildMessageSignedForPay
      { from_addr := some "0xW", to_address := some zeroAddress, to_identity := some ""
        token := some zeroAddress, amount := some (.fin 1), priorityFee := some (.fin 0)
        nonce := some (.fin 7), priority := some false, executor := none }
      = .error "Missing required parameters for payment signature" :=
  claim_C10_zero_falsy.1 _ rfl

/-- C7 counterexample: the whitespace-only username `" "` hashes
successfully (its normalized form is the empty string, hashed without
complaint), but its trimmed lower-cased form `""` is rejected — so
`hash(u)` does **not** equal `hash(trim(lower(u)))` for every non-empty
string `u`. -/
theorem claim_C7_counterexample :
    (hashPreregisteredUsername (.str " ")).isOk = true ∧
    jsToLower (jsTrim " ") = "" ∧
    (hashPreregisteredUsername (.str (jsToLower (jsTrim " ")))).isOk = false :=
  ⟨rfl, rfl, rfl⟩

/-- C7 (amended): the username hasher is deterministic, and for every
string whose **trimmed form is non-empty** it is invariant under
pre-normalization (`hash(u) = hash(lower(trim(u)))`, so in particular
`hash("Alice ") = hash("alice")`); it fails exactly on the empty string
and on non-string values. -/
theorem claim_C7_hasher :
    (∀ u : String, jsTrim u ≠ "" →
      hashPreregisteredUsername (.str u)
        = hashPreregisteredUsername (.str (jsToLower (jsTrim u)))) ∧
    (∀ v : JSVal, hashPreregisteredUsername v = hashPreregisteredUsername v) ∧
    (∀ s : String, (hashPreregisteredUsername (.str s)).isOk = !(s = "" : Bool)) ∧
    (∀ v : JSVal, (∀ s : String, v ≠ .str s) → (hashPreregisteredUsername v).isOk = false) := by
  refine ⟨hash_normalization, fun v => rfl, fun s => ?_, fun v hv => ?_⟩
  · by_cases h : s = ""
    · simp [hashPreregisteredUsername, h]
      rfl
    · simp [hashPreregisteredUsername, h]
      rfl
  · cases v with
    | str s => exact absurd rfl (hv s)
    | undef => rfl
    | null => rfl
    | bool b => rfl
    | num n => rfl
    | big i => rfl

/-- C7 witness: `hash("Alice ") = hash("alice")`. -/
theorem claim_C7_witness :
    hashPreregisteredUsername (.str "Alice ")
      = hashPreregisteredUsername (.str "alice") :=
  claim_C7_hasher.1 "Alice " (by decide)

/-- C9 counterexample: the nonce validator rejects zero in all three input
forms, contradicting the claim that every non-negative integer (including
zero) is accepted. -/
theorem claim_C9_counterexample :
    isValidNonce (.num (.fin 0)) = false ∧
    isValidNonce (.big 0) = false ∧
    isValidNonce (.str "0") = false := by
  refine ⟨by decide, by decide, by decide⟩

/-- C9 (amended): the nonce validator accepts exactly the **positive**
integers — a finite number is accepted iff it is an integer `> 0`, a big
integer iff it is `> 0`, and a decimal numeral string iff its value is
`> 0`; zero, negatives, and non-integers are rejected in every form. -/
theorem claim_C9_nonce_validator :
    (∀ q : ℚ, isValidNonce (.num (.fin q)) = (decide (q.den = 1) && decide (0 < q))) ∧
    (isValidNonce (.num .nan) = false ∧ isValidNonce (.num .inf) = false) ∧
    (∀ i : ℤ, isValidNonce (.big i) = decide (0 < i)) ∧
    (∀ n : ℕ, 0 < n → isValidNonce (.str (natNumeral n)) = true) ∧
    (isValidNonce (.str (natNumeral 0)) = false) ∧
    (∀ n : ℕ, isValidNonce (.str ("-" ++ natNumeral n)) = false) := by
  refine ⟨fun q => rfl, ⟨rfl, rfl⟩, fun i => rfl, fun n hn => ?_, by decide, fun n => ?_⟩
  · rw [isValidNonce]
    rw [jsParseInt_natNumeral n hn, jsParseFloat_natNumeral n hn]
    simp [JSNum.isNaN, JSNum.gt0, JSNum.isInteger, hn]
  · rcases Nat.eq_zero_or_pos n with h0 | hpos
    · subst h0
      decide
    · rw [isValidNonce]
      rw [jsParseInt_neg_natNumeral n hpos]
      have hng : ¬(0 : ℚ) < -(n : ℚ) := by
        simp
      simp [JSNum.isNaN, JSNum.gt0, hng]

/-- C9 witness: the positive numeral `"7"` (and the number and bigint
forms of `7`) are accepted. -/
theorem claim_C9_witness :
    isValidNonce (.str (natNumeral 7)) = true :=
  claim_C9_nonce_validator.2.2.2.1 7 (by decide)

theorem foldl_jsAdd_fins (rs : List DisperseRecipient) (qs : List ℚ) (a : ℚ)
    (h : rs.map (fun r => jsParseFloat r.amount) = qs.map JSNum.fin) :
    rs.foldl (fun (acc : JSNum) r => acc.add (jsParseFloat r.amount)) (JSNum.fin a)
      = JSNum.fin (a + qs.sum) := by
  induction rs generalizing qs a with
  | nil =>
    cases qs with
    | nil => simp
    | cons q qs => simp at h
  | cons r rs ih =>
    cases qs with
    | nil => simp at h
    | cons q qs =>
      simp only [List.map_cons, List.cons.injEq] at h
      obtain ⟨hq, hrest⟩ := h
      simp only [List.foldl_cons, hq]
      have hstep : (JSNum.fin a).add (JSNum.fin q) = .fin (a + q) := by
        simp [JSNum.add, ratAdd_eq]
      rw [hstep, ih qs (a + q) hrest]
      rw [List.sum_cons]
      ring_nf

theorem validateTotalAmount_iff (rs : List DisperseRecipient) (t : String)
    (qs : List ℚ) (qt : ℚ)
    (h1 : rs.map (fun r => jsParseFloat r.amount) = qs.map JSNum.fin)
    (h2 : jsParseFloat t = .fin qt) :
    (validateTotalAmount rs t = true ↔ |qs.sum - qt| < 1 / 1000000) := by
  rw [validateTotalAmount]
  rw [foldl_jsAdd_fins rs qs 0 h1, h2]
  simp only [JSNum.sub, JSNum.abs, JSNum.lt, ratSub_eq, ratAbs_eq]
  have hmk : (mkRat 1 1000000 : ℚ) = 1 / 1000000 := by
    rw [Rat.mkRat_eq_div]
    norm_num
  rw [hmk]
  rw [zero_add]
  exact decide_eq_true_iff

/-- C2 counterexample: the disperse builder **succeeds** on a declared
total of `6` against recipients summing to `5` (a mismatch far beyond the
`1e-6` tolerance), because the sum check lives in the separate
`validateTotalAmount` (which indeed rejects), not in the builder — so the
builder does not fail with `AmountMismatch` as claimed. -/
theorem claim_C2_counterexample :
    (buildMessageSignedForDispersePay 0 (c2Bag "6")).isOk = true ∧
    validateTotalAmount c2Recipients "6" = false :=
  ⟨by decide, by decide⟩

/-- C2 (amended): the disperse **builder** performs no total-amount
validation (it accepts a mismatched total); the comparison lives in the
separate validator `validateTotalAmount`, which accepts exactly when the
absolute difference between the declared total and the recipients' sum is
**strictly below** `1e-6` — a difference exactly at the `1e-6` boundary
(and a fortiori `5.000002` against a sum of `5`, difference `2e-6`) is
rejected. -/
theorem claim_C2_total_amount :
    (∀ (rs : List DisperseRecipient) (t : String) (qs : List ℚ) (qt : ℚ),
      rs.map (fun r => jsParseFloat r.amount) = qs.map JSNum.fin →
      jsParseFloat t = .fin qt →
      (validateTotalAmount rs t = true ↔ |qs.sum - qt| < 1 / 1000000)) ∧
    (buildMessageSignedForDispersePay 0 (c2Bag "6")).isOk = true :=
  ⟨validateTotalAmount_iff, by decide⟩

/-- C2 witness: a matching total `5` is accepted, the boundary total
`5.000001` (difference exactly `1e-6`) and `5.000002` are rejected. -/
theorem claim_C2_witness :
    validateTotalAmount c2Recipients "5" = true ∧
    validateTotalAmount c2Recipients "5.000001" = false ∧
    validateTotalAmount c2Recipients "5.000002" = false := by
  have h5 := claim_C2_total_amount.1 c2Recipients "5" [2, 3] 5 (by decide) (by decide)
  have hb := claim_C2_total_amount.1 c2Recipients "5.000001" [2, 3] (mkRat 5000001 1000000)
    (by decide) (by decide)
  have hc := claim_C2_total_amount.1 c2Recipients "5.000002" [2, 3] (mkRat 2500001 500000)
    (by decide) (by decide)
  refine ⟨h5.mpr (by norm_num), ?_, ?_⟩
  · rw [← Bool.not_eq_true]
    intro hcontra
    have hx := hb.mp hcontra
    rw [Rat.mkRat_eq_div] at hx
    norm_num at hx
    rw [abs_of_pos (by norm_num)] at hx
    norm_num at hx
  · rw [← Bool.not_eq_true]
    intro hcontra
    have hx := hc.mp hcontra
    rw [Rat.mkRat_eq_div] at hx
    norm_num at hx
    rw [abs_of_pos (by norm_num)] at hx
    norm_num at hx

/-- C5 counterexample: `ethers.isAddress` accepts the bare 40-hex-digit
string without the `0x` prefix (not of the claimed 42-character shape),
and rejects the 42-character mixed-case `0x…` string whose EIP-55
checksum is wrong — so the validator is neither restricted to the claimed
shape nor checksum-insensitive. -/
theorem claim_C5_counterexample :
    isValidAddress (String.mk (List.replicate 40 'a')) = true ∧
    (String.mk (List.replicate 40 'a')).length = 40 ∧
    isValidAddress "0x742d35Cc6634C0532925a3b8D4C9db96C4b4d8b6" = false := by
  refine ⟨by decide, by decide, by decide⟩

/-- C5 (amended): among 42-character strings, the validator accepts every
`0x` + 40-hex-digit string whose hex letters are uniformly cased (no
checksum applies then) and rejects every 42-character string not of that
shape; it is not checksum-insensitive on mixed-case input, and it also
accepts some strings outside the 42-character shape (bare 40-hex-digit
strings). -/
theorem claim_C5_address_validator :
    (∀ s : String, s.data.length = 42 → s.data.take 2 = ['0', 'x'] →
      (s.data.drop 2).all isHexDigitCh = true → isMixedCaseHex s = false →
      isValidAddress s = true) ∧
    (∀ s : String, s.data.length = 42 →
      ¬(s.data.take 2 = ['0', 'x'] ∧ (s.data.drop 2).all isHexDigitCh = true) →
      isValidAddress s = false) := by
  constructor
  · intro s h42 hpre hhex hmix
    have hreg : matchesAddrRegex s = true := by
      rw [matchesAddrRegex]
      simp [h42, hpre, hhex]
    rw [isValidAddress, ethersIsAddress, getAddress.eq_def]
    rw [if_pos hreg]
    rw [if_pos hpre]
    simp [hmix]
  · intro s h42 hnot
    have hreg : matchesAddrRegex s = false := by
      rw [matchesAddrRegex]
      by_cases hp : s.data.take 2 = ['0', 'x']
      · by_cases ha : (s.data.drop 2).all isHexDigitCh = true
        · exact absurd ⟨hp, ha⟩ hnot
        · simp [h42, hp, ha]
      · simp [h42, hp]
    have hicap : matchesIcapRegex s = false := by
      rw [matchesIcapRegex]
      simp [h42]
    rw [isValidAddress, ethersIsAddress, getAddress.eq_def]
    rw [if_neg (by rw [hreg]; exact Bool.false_ne_true)]
    rw [if_neg (by rw [hicap]; exact Bool.false_ne_true)]
    rfl

/-- C5 witness: a uniformly lower-case `0x` + 40-hex string is accepted
and a 42-character non-hex string is rejected. -/
theorem claim_C5_witness :
    isValidAddress ("0x" ++ String.mk (List.replicate 40 'a')) = true ∧
    isValidAddress (String.mk (List.replicate 42 'z')) = false :=
  ⟨claim_C5_address_validator.1 _ (by decide) (by decide) (by decide) (by decide),
   claim_C5_address_validator.2 _ (by decide) (by decide)⟩

/-- C1: the scenario's inputs pass the step validators, but at signing
time `parseInt` truncates the decimal strings — `"1.5"` to `1` and
`"0.01"` to `0` — and the zero fee trips the builder's falsy
missing-parameter guard, so the whole attempt throws and **no**
SignableMessage tuple is ever produced (for any signing collaborator),
contradicting the claimed tuple with a 1.5-scaled amount. -/
theorem claim_C1_scenario :
    isValidAmount (.str "1.5") = true ∧
    isValidPriorityFee (.str "0.01") = true ∧
    jsParseInt "1.5" = .fin 1 ∧
    jsParseInt "0.01" = .fin 0 ∧
    (∀ sign : Except String String,
      generatePaymentSignature (.ok "0xWallet") (.error "ledger unused") (.ok 7) sign
        c1Params "ethereum" = .error "Failed to generate payment signature") :=
  ⟨by decide, by decide, by decide, by decide, fun sign => rfl⟩
